import Mathlib

/-!
Verification of the network-analytics-engine IPDR mapping/transformation core.

The definitions below are a shallow embedding of the JavaScript sources
`src/services/ipdr.service.js`, `src/services/ai.service.js` and
`src/config/schemaDefinition.js`:

* JavaScript strings are Lean `String`s (ASCII-faithful);
* a JavaScript string-or-null value is `Option String`, where `none`
  models both `null` and `undefined`;
* JavaScript string truthiness (`!v` is true for `null`, `undefined`
  and the empty string) is `truthyS`;
* JavaScript numbers appearing here are integers (`Int`/`Nat`); the
  score arithmetic of the fuzzy matcher is done in `ℚ` (the values are
  small dyadic/decimal rationals, so double rounding is immaterial);
* `NaN` results of `parseInt` are modelled by `Option Int` with `none`
  for `NaN` (the two are observationally equal in this code: both
  serialize to the empty CSV field and both yield the `UNKNOWN` label);
* `Date` objects are `JsDate` (a valid epoch-milliseconds value or the
  Invalid Date); the engine-defined `Date.parse` is a parameter
  `dateParse` of the environment `JsEnv`, as is `toISOString`
  rendering, `Date.now()` and the `Math.random()` suffix used by
  `generateSessionIdentifier`;
* code that can throw (only `toISOString` on an Invalid Date inside
  `_recordToCsv`) returns `Except Unit`.
-/

/-- JavaScript string truthiness for a string-or-null value: `null`,
`undefined` and `""` are falsy, every other string is truthy. -/
def truthyS : Option String → Bool
  | none => false
  | some s => !(s = "")

/-- Lower-case an ASCII character (model of the ASCII fragment of
`String.prototype.toLowerCase`). -/
def lowerChar (c : Char) : Char :=
  if 'A' ≤ c ∧ c ≤ 'Z' then Char.ofNat (c.toNat + 32) else c

/-- Upper-case an ASCII character (model of the ASCII fragment of
`String.prototype.toUpperCase`). -/
def upperChar (c : Char) : Char :=
  if 'a' ≤ c ∧ c ≤ 'z' then Char.ofNat (c.toNat - 32) else c

/-- ASCII whitespace, the characters matched by the regex class `\s`
that occur in ASCII data. -/
def isSpaceChar (c : Char) : Bool :=
  c = ' ' || c = '\t' || c = '\n' || c = '\x0d' || c = '\x0b' || c = '\x0c'

/-- Decimal digit test. -/
def isDigitC (c : Char) : Bool :=
  48 ≤ c.toNat && c.toNat ≤ 57

/-- Hexadecimal digit test (for the IPv6 regex `[0-9a-fA-F]`). -/
def isHexC (c : Char) : Bool :=
  isDigitC c || ('a' ≤ c && c ≤ 'f') || ('A' ≤ c && c ≤ 'F')

/-- Boolean list-prefix test used to implement substring containment. -/
def isPrefixOfL : List Char → List Char → Bool
  | [], _ => true
  | _ :: _, [] => false
  | a :: as, b :: bs => a = b && isPrefixOfL as bs

/-- Substring containment `hay.includes(needle)` on character lists. -/
def containsSub (hay needle : List Char) : Bool :=
  if isPrefixOfL needle hay then true
  else
    match hay with
    | [] => false
    | _ :: t => containsSub t needle

/-- String-level `includes`. -/
def strIncludes (hay needle : String) : Bool :=
  containsSub hay.data needle.data

/-- Lower-case a whole string (ASCII model of `toLowerCase()`). -/
def lowerStr (s : String) : String :=
  ⟨s.data.map lowerChar⟩

/-- Upper-case a whole string (ASCII model of `toUpperCase()`). -/
def upperStr (s : String) : String :=
  ⟨s.data.map upperChar⟩

/-- Model of JavaScript `parseInt(s, 10)`: skip leading whitespace, an
optional sign, then the longest digit run; `none` models `NaN`. -/
def jsParseInt (s : String) : Option Int :=
  let cs := s.data.dropWhile isSpaceChar
  let signAndRest : Int × List Char :=
    match cs with
    | '-' :: t => (-1, t)
    | '+' :: t => (1, t)
    | t => (1, t)
  let digits := signAndRest.2.takeWhile isDigitC
  if digits.isEmpty then none
  else
    some (signAndRest.1 *
      (digits.foldl (fun a c => a * 10 + (c.toNat - 48)) 0 : Nat))

/-- Fuel-based decimal rendering of a natural number (kernel-reducible
model of JavaScript number-to-string for non-negative integers). -/
def natDigitsAux : Nat → Nat → List Char
  | 0, _ => []
  | fuel + 1, n =>
      if n < 10 then [Char.ofNat (48 + n)]
      else natDigitsAux fuel (n / 10) ++ [Char.ofNat (48 + n % 10)]

/-- Decimal rendering of a natural number. -/
def natRepr (n : Nat) : String :=
  ⟨natDigitsAux (n + 1) n⟩

/-- Decimal rendering of an integer, as JavaScript string conversion
produces for integral numbers. -/
def intRepr (n : Int) : String :=
  if n < 0 then "-" ++ natRepr n.natAbs else natRepr n.natAbs

/-! ## Schema catalog (`src/config/schemaDefinition.js`)

The catalog entries carry a label and description in the source; the
claims only depend on the field names, their order and the `required`
flags, which are embedded verbatim. -/

/-- Field names of `schemaDefinition` with their `required` flags, in
source (insertion) order. -/
def schemaFields : List (String × Bool) :=
  [("a_party_id", true),
   ("start_time", true),
   ("end_time", false),
   ("duration_ms", false),
   ("dst_ip", true),
   ("dst_port", true),
   ("nat_ip", false),
   ("src_ip", false),
   ("bytes_up", false),
   ("bytes_down", false),
   ("protocol", false)]

/-- Key list of the schema catalog (`Object.keys(schemaDefinition)`). -/
def schemaKeys : List String :=
  schemaFields.map Prod.fst

/-- The required subset of the schema catalog: the fields whose
`required` flag is true in `schemaDefinition.js`. -/
def schemaRequiredKeys : List String :=
  (schemaFields.filter Prod.snd).map Prod.fst

/-! ## `REQUIRED_FIELDS` and `validateRequiredFields`
(`src/services/ipdr.service.js`) -/

/-- The hard-coded `REQUIRED_FIELDS` object of `ipdr.service.js`:
field name and error message, in source key order. -/
def REQUIRED_FIELDS : List (String × String) :=
  [("a_party_id", "Subscriber identifier is absolutely required for IPDR analysis"),
   ("src_ip", "Source IP is required to identify the subscriber's network endpoint"),
   ("dst_ip", "Destination IP is required to identify what service was accessed"),
   ("dst_port", "Destination port is required to identify the service type"),
   ("start_time", "Session start time is required for temporal analysis")]

/-- The `IMPORTANT_OPTIONAL` list of `validateRequiredFields`. -/
def IMPORTANT_OPTIONAL : List String :=
  ["bytes_up", "bytes_down", "protocol"]

/-- A candidate column mapping: a JavaScript object keyed by field
name, each value a header name or null. -/
def CMapping : Type := String → Option String

/-- One error or warning entry of the mapping validation report. -/
structure MapVError where
  field : String
  message : String
deriving DecidableEq, Repr

/-- The report produced by `validateRequiredFields`. -/
structure MapValidation where
  isValid : Bool
  errors : List MapVError
  warnings : List MapVError
  requiredFieldsCount : Nat
  mappedRequiredCount : Nat
deriving DecidableEq, Repr

/-- Embedding of `validateRequiredFields(mapping, fileHeaders)`. The
`fileHeaders` argument is unused in the source body and omitted. An
entry fails the check `!mapping[f] || mapping[f] === null` exactly when
it is absent, null, or the empty string. -/
def validateRequiredFields (mapping : CMapping) : MapValidation :=
  let errors :=
    (REQUIRED_FIELDS.filter (fun p => !truthyS (mapping p.1))).map
      (fun p => MapVError.mk p.1 p.2)
  let warnings1 :=
    (IMPORTANT_OPTIONAL.filter (fun f => !truthyS (mapping f))).map
      (fun f => MapVError.mk f
        (f ++ " is not mapped - data volume/protocol analysis will be limited"))
  let warnings2 :=
    match mapping "a_party_id" with
    | some h =>
        if h ≠ "" then
          let mh := lowerStr h
          if strIncludes mh "session" && !strIncludes mh "subscriber" &&
             !strIncludes mh "msisdn" && !strIncludes mh "imsi" then
            [MapVError.mk "a_party_id"
              "Mapped field appears to be session ID rather than subscriber ID - this may limit subscriber analysis"]
          else []
        else []
    | none => []
  { isValid := errors.isEmpty
    errors := errors
    warnings := warnings1 ++ warnings2
    requiredFieldsCount := REQUIRED_FIELDS.length
    mappedRequiredCount :=
      (REQUIRED_FIELDS.filter (fun p => truthyS (mapping p.1))).length }

/-! ## Fuzzy matcher (`src/services/ai.service.js`) -/

/-- The `FIELD_PATTERNS` alias table, in source order, verbatim. -/
def FIELD_PATTERNS : List (String × List String) :=
  [("a_party_id",
    ["msisdn", "imsi", "subscriber_id", "user_id", "calling_party",
     "a_number", "mobile_number", "phone_number", "caller_id",
     "subscriber", "account_id", "customer_id"]),
   ("src_ip",
    ["a_party_ip", "source_ip", "private_ip", "client_ip", "user_ip",
     "internal_ip", "local_ip", "originating_ip"]),
   ("dst_ip",
    ["b_party_ip", "destination_ip", "dest_ip", "server_ip", "target_ip",
     "remote_ip", "external_ip", "called_ip"]),
   ("start_time",
    ["start_time", "session_start", "begin_time", "call_start", "timestamp",
     "start_timestamp", "session_begin", "connection_start"]),
   ("end_time",
    ["end_time", "session_end", "stop_time", "call_end", "finish_time",
     "end_timestamp", "session_stop", "connection_end"]),
   ("dst_port",
    ["b_party_port", "destination_port", "dest_port", "server_port",
     "target_port", "remote_port", "called_port"]),
   ("protocol",
    ["protocol", "l4_protocol", "transport_protocol", "ip_protocol"]),
   ("bytes_up",
    ["bytes_up", "uplink_volume", "upload_bytes", "tx_bytes", "sent_bytes",
     "outbound_bytes", "upstream_bytes"]),
   ("bytes_down",
    ["bytes_down", "downlink_volume", "download_bytes", "rx_bytes",
     "received_bytes", "inbound_bytes", "downstream_bytes",
     "bytes_transferred"])]

/-- The normalization `s.toLowerCase().replace(/[_\s-]/g, '')` applied
by `fuzzyMatchField` to headers and aliases alike. -/
def normalizeChars (s : String) : List Char :=
  (s.data.map lowerChar).filter (fun c => !(c = '_' || isSpaceChar c || c = '-'))

/-- One row-update step of the Levenshtein dynamic program
(`matrix[j][i] = min(ins, del, sub)` of `levenshteinDistance`): `pUp`
is `prev[i]`, `diag` is `prev[i−1]`, `left` is the freshly computed
`cur[i−1]`. -/
def levStep (c2 : Char) : List Char → List Nat → Nat → Nat → List Nat
  | [], _, _, _ => []
  | _ :: _, [], _, _ => []
  | c1 :: s1, pUp :: pRest, diag, left =>
      let cell := min (left + 1) (min (pUp + 1) (diag + (if c1 = c2 then 0 else 1)))
      cell :: levStep c2 s1 pRest pUp cell

/-- One full row of the dynamic program: new row `j` from row `j−1`,
with `matrix[j][0] = j`. -/
def levRow (s1 : List Char) (c2 : Char) (prev : List Nat) : List Nat :=
  match prev with
  | [] => []
  | p0 :: rest => (p0 + 1) :: levStep c2 s1 rest p0 (p0 + 1)

/-- Embedding of `levenshteinDistance(str1, str2)`: the bottom-right
entry of the dynamic-programming matrix whose first row is
`[0, …, str1.length]`. -/
def levenshteinDistance (str1 str2 : List Char) : Nat :=
  (str2.foldl (fun prev c2 => levRow str1 c2 prev)
    (List.range (str1.length + 1))).getLastD 0

/-- Embedding of `calculateSimilarity(str1, str2)`: normalized
edit-distance similarity `(maxLen − distance) / maxLen`, `1` when both
strings are empty. The quotient is written with `mkRat`, which builds
exactly the rational `(maxLen − distance) / maxLen`. -/
def calculateSimilarity (str1 str2 : List Char) : ℚ :=
  let longer := if str1.length > str2.length then str1 else str2
  let shorter := if str1.length > str2.length then str2 else str1
  if longer.length = 0 then 1
  else mkRat ((longer.length : Int) - (levenshteinDistance longer shorter : Int))
        longer.length

/-- The alias loop of `fuzzyMatchField`, over the already normalized
header. Each alias is tried in order: exact normalized equality
returns 1, containment either way returns 4/5, similarity above 7/10
returns that similarity, and otherwise the next alias is tried. -/
def fuzzyGo (hl : List Char) : List String → ℚ
  | [] => 0
  | p :: ps =>
      let pl := normalizeChars p
      if hl = pl then 1
      else if containsSub hl pl || containsSub pl hl then mkRat 4 5
      else
        let s := calculateSimilarity hl pl
        if s > mkRat 7 10 then s else fuzzyGo hl ps

/-- Embedding of `fuzzyMatchField(header, patterns)`. -/
def fuzzyMatchField (header : String) (patterns : List String) : ℚ :=
  fuzzyGo (normalizeChars header) patterns

/-- The score a single alias achieves against a normalized header
under the three scoring rules of `fuzzyMatchField` (1 for exact
normalized equality, 4/5 for containment either way, the normalized
similarity when above 7/10, 0 otherwise). -/
def aliasScore (hl pl : List Char) : ℚ :=
  if hl = pl then 1
  else if containsSub hl pl || containsSub pl hl then mkRat 4 5
  else
    let s := calculateSimilarity hl pl
    if s > mkRat 7 10 then s else 0

/-- First nonzero element of a list of scores, 0 if none. -/
def firstPositive : List ℚ → ℚ
  | [] => 0
  | x :: xs => if x ≠ 0 then x else firstPositive xs

/-- The header-selection loop of `createFallbackMapping`: fold over
the file headers keeping the best score seen so far; a header is
accepted only when its score strictly exceeds both the best so far and
the 3/5 confidence threshold. -/
def bestHeaderMatch (patterns : List String) (fileHeaders : List String) :
    Option String :=
  (fileHeaders.foldl
    (fun (acc : ℚ × Option String) header =>
      let score := fuzzyMatchField header patterns
      if score > acc.1 ∧ score > mkRat 3 5 then (score, some header) else acc)
    (0, none)).2

/-- Embedding of `createFallbackMapping(fileHeaders)`: every schema
field starts at null; fields present in `FIELD_PATTERNS` get their
best-matching header, if one passed the threshold. -/
def createFallbackMapping (fileHeaders : List String) : CMapping :=
  fun f =>
    match FIELD_PATTERNS.find? (fun p => p.1 = f) with
    | some p => bestHeaderMatch p.2 fileHeaders
    | none => none

/-- Embedding of the post-parse enhancement step of
`getSuggestedMapping`: when the parsed AI mapping covers fewer than
60% of the required schema fields, merge in the fallback mapping for
every schema key the AI left unmapped (falsy) where the fallback found
a (truthy) header; AI-provided truthy entries are kept. -/
def mergeSuggestedMapping (ai : CMapping) (fileHeaders : List String) : CMapping :=
  if ((schemaRequiredKeys.filter (fun f => truthyS (ai f))).length : ℚ) <
      mkRat (3 * (schemaRequiredKeys.length : Int)) 5 then
    let fallback := createFallbackMapping fileHeaders
    fun f =>
      if f ∈ schemaKeys ∧ ¬ truthyS (ai f) = true ∧ truthyS (fallback f) = true then
        fallback f
      else ai f
  else ai

/-! ## Record transformer (`IPDRProcessor` of `src/services/ipdr.service.js`) -/

/-- A JavaScript `Date`: either a valid epoch-milliseconds instant or
the Invalid Date produced when parsing fails. -/
inductive JsDate where
  | valid (ms : Int)
  | invalid
deriving DecidableEq, Repr

/-- The engine/environment-provided pieces the processor uses:
`Date.parse`/`new Date(string)` (epoch ms or failure), `toISOString`
rendering of a valid instant, `Date.now()` and the random suffix that
`generateSessionIdentifier` draws from `Math.random()`. -/
structure JsEnv where
  dateParse : String → Option Int
  isoString : Int → String
  nowMs : Int
  randSuffix : String

/-- A raw CSV row: ordered header → value bindings. -/
def RawRecord : Type := List (String × String)

/-- Property read `rawRecord[h]` on a row object. -/
def lookupRow (row : RawRecord) (h : String) : Option String :=
  (row.find? (fun p => p.1 = h)).map Prod.snd

/-- The object built by `_extractMappedValues`: for every canonical
field, the raw value of the mapped column, or null. -/
structure MappedValues where
  a_party_id : Option String
  start_time : Option String
  end_time : Option String
  duration_ms : Option String
  src_ip : Option String
  src_port : Option String
  nat_ip : Option String
  nat_port : Option String
  dst_ip : Option String
  dst_port : Option String
  protocol : Option String
  bytes_up : Option String
  bytes_down : Option String
deriving DecidableEq, Repr

/-- One field of `_extractMappedValues`:
`this.mapping[f] ? rawRecord[this.mapping[f]] : null`. -/
def extractField (m : CMapping) (row : RawRecord) (f : String) : Option String :=
  match m f with
  | some h => if h = "" then none else lookupRow row h
  | none => none

/-- Embedding of `IPDRProcessor._extractMappedValues(rawRecord)`. -/
def extractMappedValues (m : CMapping) (row : RawRecord) : MappedValues :=
  { a_party_id := extractField m row "a_party_id"
    start_time := extractField m row "start_time"
    end_time := extractField m row "end_time"
    duration_ms := extractField m row "duration_ms"
    src_ip := extractField m row "src_ip"
    src_port := extractField m row "src_port"
    nat_ip := extractField m row "nat_ip"
    nat_port := extractField m row "nat_port"
    dst_ip := extractField m row "dst_ip"
    dst_port := extractField m row "dst_port"
    protocol := extractField m row "protocol"
    bytes_up := extractField m row "bytes_up"
    bytes_down := extractField m row "bytes_down" }

/-- Key-based read `mappedValues[f]` for the required-field loop of
`_validateRecord`. -/
def getMV (mv : MappedValues) : String → Option String
  | "a_party_id" => mv.a_party_id
  | "start_time" => mv.start_time
  | "end_time" => mv.end_time
  | "duration_ms" => mv.duration_ms
  | "src_ip" => mv.src_ip
  | "src_port" => mv.src_port
  | "nat_ip" => mv.nat_ip
  | "nat_port" => mv.nat_port
  | "dst_ip" => mv.dst_ip
  | "dst_port" => mv.dst_port
  | "protocol" => mv.protocol
  | "bytes_up" => mv.bytes_up
  | "bytes_down" => mv.bytes_down
  | _ => none

/-- The data-level rejection test of `_validateRecord` for a required
field: `!value || value === '' || value === 'null' || value === 'NULL'`. -/
def badValue : Option String → Bool
  | none => true
  | some s => s = "" || s = "null" || s = "NULL"

/-- Split a character list on a separator (model of `String.split` as
performed implicitly by the anchored IP regexes). -/
def splitOnC (sep : Char) : List Char → List (List Char)
  | [] => [[]]
  | c :: t =>
      let r := splitOnC sep t
      if c = sep then [] :: r
      else
        match r with
        | [] => [[c]]
        | h :: t2 => (c :: h) :: t2

/-- Full match of one IPv4 octet against the regex alternation
`25[0-5] | 2[0-4][0-9] | [01]?[0-9][0-9]?`. -/
def octetOk : List Char → Bool
  | [a] => isDigitC a
  | [a, b] => isDigitC a && isDigitC b
  | [a, b, c] =>
      (a = '2' && b = '5' && (48 ≤ c.toNat && c.toNat ≤ 53))
      || (a = '2' && (48 ≤ b.toNat && b.toNat ≤ 52) && isDigitC c)
      || ((a = '0' || a = '1') && isDigitC b && isDigitC c)
  | _ => false

/-- The anchored IPv4 regex of `_isValidIP`: four dot-separated
octets. -/
def ipv4Ok (s : String) : Bool :=
  let parts := splitOnC '.' s.data
  parts.length = 4 && parts.all octetOk

/-- The anchored full-IPv6 regex of `_isValidIP`: eight colon-separated
groups of one to four hex digits. -/
def ipv6Ok (s : String) : Bool :=
  let parts := splitOnC ':' s.data
  parts.length = 8 &&
    parts.all (fun p => 1 ≤ p.length && p.length ≤ 4 && p.all isHexC)

/-- Embedding of `IPDRProcessor._isValidIP(ip)`: IPv4 shape, full IPv6
shape, or any string containing a colon (partial-IPv6 tolerance). -/
def isValidIP (ip : String) : Bool :=
  ipv4Ok ip || ipv6Ok ip || ip.data.contains ':'

/-- The report of the data-level `_validateRecord`. -/
structure RecValidation where
  isValid : Bool
  errors : List String
deriving DecidableEq, Repr

/-- Embedding of `IPDRProcessor._validateRecord(mappedValues)`: one
error per required field with a missing/empty/null value, then the
start-time, destination-port and IP format checks, in source order. -/
def validateRecord (env : JsEnv) (mv : MappedValues) : RecValidation :=
  let e1 :=
    (REQUIRED_FIELDS.filter (fun p => badValue (getMV mv p.1))).map
      (fun p => "Missing required field: " ++ p.1 ++ " (" ++ p.2 ++ ")")
  let e2 :=
    if truthyS mv.start_time && (env.dateParse ((mv.start_time).getD "")).isNone
    then ["Invalid start_time format"] else []
  let e3 :=
    if truthyS mv.dst_port &&
        (match jsParseInt ((mv.dst_port).getD "") with
         | none => true
         | some n => decide (n < 1))
    then ["Invalid dst_port - must be a positive number"] else []
  let e4 :=
    if truthyS mv.src_ip && !isValidIP ((mv.src_ip).getD "")
    then ["Invalid src_ip format"] else []
  let e5 :=
    if truthyS mv.dst_ip && !isValidIP ((mv.dst_ip).getD "")
    then ["Invalid dst_ip format"] else []
  let errors := e1 ++ e2 ++ e3 ++ e4 ++ e5
  { isValid := errors.isEmpty, errors := errors }

/-- The well-known-port table of `getServiceLabel`, verbatim. -/
def portMap : List (Int × String) :=
  [(80, "HTTP/WEB"), (443, "HTTPS/WEB"), (53, "DNS"), (22, "SSH"),
   (21, "FTP"), (25, "SMTP"), (110, "POP3"), (143, "IMAP"),
   (993, "IMAPS"), (995, "POP3S"), (3306, "MySQL"), (5432, "PostgreSQL"),
   (6379, "Redis"), (27017, "MongoDB"), (8080, "HTTP-ALT"),
   (8443, "HTTPS-ALT"), (1194, "OpenVPN"), (1723, "PPTP"), (5060, "SIP")]

/-- Embedding of `getServiceLabel(port)`. The argument is the already
parsed destination port; `none` covers the null and `NaN` cases, both
of which fail the `parseInt`/`isNaN` guard and yield `UNKNOWN`. -/
def getServiceLabel (port : Option Int) : String :=
  match port with
  | none => "UNKNOWN"
  | some p =>
      match portMap.find? (fun e => e.1 = p) with
      | some e => e.2
      | none => "OTHER"

/-- Embedding of `generateSessionIdentifier(record)` as called by
`_processRecord`: the record's `start_time` is always a `Date` object
there (truthy), so the timestamp is its epoch value, rendering as
`NaN` for an Invalid Date; `src_ip` falls back to `unknown` when
falsy. -/
def generateSessionIdentifier (env : JsEnv) (startDate : JsDate)
    (srcIp : Option String) : String :=
  let timestamp :=
    match startDate with
    | .valid ms => intRepr ms
    | .invalid => "NaN"
  let srcInfo :=
    match srcIp with
    | some s => if s = "" then "unknown" else s
    | none => "unknown"
  srcInfo ++ "_" ++ timestamp ++ "_" ++ env.randSuffix

/-- `v ? parseInt(v, 10) : null` for the port and byte-count fields;
`none` covers null and `NaN`. -/
def parsedOpt (v : Option String) : Option Int :=
  match v with
  | some s => if s = "" then none else jsParseInt s
  | none => none

/-- The canonical record built by `_processRecord`. -/
structure CleanRecord where
  a_party_id : String
  start_time : JsDate
  end_time : Option JsDate
  duration_ms : Option Int
  src_ip : Option String
  src_port : Option Int
  nat_ip : Option String
  nat_port : Option Int
  dst_ip : Option String
  dst_port : Option Int
  protocol : String
  service_label : String
  bytes_up : Option Int
  bytes_down : Option Int
deriving DecidableEq, Repr

/-- Embedding of `IPDRProcessor._processRecord(mappedValues)`. -/
def processRecord (env : JsEnv) (mv : MappedValues) : CleanRecord :=
  let startTime : JsDate :=
    match mv.start_time with
    | some s =>
        if s = "" then .valid env.nowMs
        else
          match env.dateParse s with
          | some ms => .valid ms
          | none => .invalid
    | none => .valid env.nowMs
  let endTime : Option JsDate :=
    match mv.end_time with
    | some s =>
        if s = "" then none
        else
          some (match env.dateParse s with
                | some ms => JsDate.valid ms
                | none => JsDate.invalid)
    | none => none
  let dstPort : Option Int := parsedOpt mv.dst_port
  let duration : Option Int :=
    if truthyS mv.duration_ms then
      match jsParseInt ((mv.duration_ms).getD "") with
      | some d => some (if d < 1000000 then d * 1000 else d)
      | none => none
    else
      match endTime, startTime with
      | some (.valid ems), .valid sms => some (ems - sms)
      | some _, _ => none
      | none, _ => none
  let aParty : String :=
    match mv.a_party_id with
    | some s =>
        if s = "" then generateSessionIdentifier env startTime mv.src_ip else s
    | none => generateSessionIdentifier env startTime mv.src_ip
  { a_party_id := aParty
    start_time := startTime
    end_time := endTime
    duration_ms := duration
    src_ip := mv.src_ip
    src_port := parsedOpt mv.src_port
    nat_ip := mv.nat_ip
    nat_port := parsedOpt mv.nat_port
    dst_ip := mv.dst_ip
    dst_port := dstPort
    protocol := upperStr
      (match mv.protocol with
       | some s => if s = "" then "TCP" else s
       | none => "TCP")
    service_label := getServiceLabel dstPort
    bytes_up :=
      if truthyS mv.bytes_up then jsParseInt ((mv.bytes_up).getD "") else some 0
    bytes_down :=
      if truthyS mv.bytes_down then jsParseInt ((mv.bytes_down).getD "") else some 0 }

/-! ## CSV encoding (`IPDRProcessor._recordToCsv`) -/

/-- A JavaScript value as seen by the `toCsv` helper: null/undefined
(and `NaN`, which serializes identically), a string, an integral
number, or a `Date`. -/
inductive JsVal where
  | nullV
  | strV (s : String)
  | intV (n : Int)
  | dateV (d : JsDate)
deriving DecidableEq, Repr

/-- Quoting trigger of `toCsv`: the string contains a comma, a double
quote, or a newline. -/
def needsQuote (s : String) : Bool :=
  s.data.contains ',' || s.data.contains '"' || s.data.contains '\n'

/-- `strValue.replace(/"/g, '""')`. -/
def doubleQuotesL : List Char → List Char
  | [] => []
  | c :: t => if c = '"' then '"' :: '"' :: doubleQuotesL t else c :: doubleQuotesL t

/-- CSV escaping of a stringified value: wrap in double quotes with
internal double quotes doubled iff the string contains a comma, a
double quote, or a newline. -/
def escapeCsv (s : String) : String :=
  if needsQuote s then "\"" ++ ⟨doubleQuotesL s.data⟩ ++ "\"" else s

/-- Embedding of the `toCsv` helper of `_recordToCsv`. Serializing an
Invalid Date throws (`toISOString` raises a `RangeError`), modelled by
`Except.error`. -/
def toCsvField (isoStr : Int → String) : JsVal → Except Unit String
  | .nullV => .ok ""
  | .dateV (.valid ms) => .ok (isoStr ms)
  | .dateV .invalid => .error ()
  | .strV s => .ok (escapeCsv s)
  | .intV n => .ok (escapeCsv (intRepr n))

/-- Coercions of the optional record fields into `JsVal`. -/
def optStrVal : Option String → JsVal
  | none => .nullV
  | some s => .strV s

/-- Optional integral field into `JsVal` (`none` is null or `NaN`,
both serializing as the empty field). -/
def optIntVal : Option Int → JsVal
  | none => .nullV
  | some n => .intV n

/-- Optional date field into `JsVal`. -/
def optDateVal : Option JsDate → JsVal
  | none => .nullV
  | some d => .dateV d

/-- The 14 values serialized by `_recordToCsv`, in source order. -/
def recordFields (r : CleanRecord) : List JsVal :=
  [.strV r.a_party_id,
   .dateV r.start_time,
   optDateVal r.end_time,
   optIntVal r.duration_ms,
   optStrVal r.nat_ip,
   optIntVal r.nat_port,
   optStrVal r.src_ip,
   optIntVal r.src_port,
   optStrVal r.dst_ip,
   optIntVal r.dst_port,
   .strV r.protocol,
   .strV r.service_label,
   optIntVal r.bytes_up,
   optIntVal r.bytes_down]

/-- Serialize a list of values, propagating the first thrown
exception. -/
def encodeFieldsE (isoStr : Int → String) : List JsVal → Except Unit (List String)
  | [] => .ok []
  | v :: vs =>
      match toCsvField isoStr v, encodeFieldsE isoStr vs with
      | .ok s, .ok ss => .ok (s :: ss)
      | .error e, _ => .error e
      | .ok _, .error e => .error e

/-- Embedding of `IPDRProcessor._recordToCsv(record)`: the 14 encoded
fields joined by commas, terminated by a single newline. -/
def recordToCsv (isoStr : Int → String) (r : CleanRecord) : Except Unit String :=
  match encodeFieldsE isoStr (recordFields r) with
  | .ok ss => .ok (String.intercalate "," ss ++ "\n")
  | .error e => .error e

/-! ## The per-row state machine (`IPDRProcessor._transform`) -/

/-- One retained rejected-record diagnostic
(`this.validationErrors.push({record, errors, rawRecord})`). -/
structure DiagEntry where
  record : Nat
  errors : List String
  rawRecord : RawRecord

/-- The mutable statistics of one `IPDRProcessor` instance. -/
structure ProcState where
  recordCount : Nat
  errorCount : Nat
  validationErrors : List DiagEntry

/-- The freshly constructed processor state. -/
def initState : ProcState :=
  { recordCount := 0, errorCount := 0, validationErrors := [] }

/-- Embedding of `IPDRProcessor._transform(rawRecord, enc, callback)`:
extraction, data-level validation (invalid rows are counted, recorded
and skipped), processing, serialization (a thrown serialization error
is caught: counted, not recorded, skipped), emission. The function is
total: no exception escapes a row. -/
def transformStep (env : JsEnv) (m : CMapping) (st : ProcState)
    (row : RawRecord) : ProcState × Option String :=
  let mv := extractMappedValues m row
  let v := validateRecord env mv
  if v.isValid then
    match recordToCsv env.isoString (processRecord env mv) with
    | .ok line => ({ st with recordCount := st.recordCount + 1 }, some line)
    | .error _ => ({ st with errorCount := st.errorCount + 1 }, none)
  else
    ({ st with
        errorCount := st.errorCount + 1
        validationErrors := st.validationErrors ++
          [{ record := st.recordCount + 1, errors := v.errors, rawRecord := row }] },
      none)

/-- Run the processor over a list of rows from a given state. -/
def runFrom (env : JsEnv) (m : CMapping) : ProcState → List RawRecord → ProcState
  | st, [] => st
  | st, r :: rs => runFrom env m (transformStep env m st r).1 rs

/-- Run the processor over a whole input from the fresh state. -/
def runTransform (env : JsEnv) (m : CMapping) (rows : List RawRecord) : ProcState :=
  runFrom env m initState rows

/-! ## Statistics (`IPDRProcessor.getProcessingStats`) -/

/-- Model of JavaScript `x.toFixed(2)` for the nonnegative rationals
arising here: round to the nearest hundredth, ties upward, then render
with exactly two decimals. -/
def toFixed2 (q : ℚ) : String :=
  let n := (Int.fdiv (q.num * 200 + (q.den : Int)) (2 * (q.den : Int))).toNat
  natRepr (n / 100) ++ "." ++
    (if n % 100 < 10 then "0" ++ natRepr (n % 100) else natRepr (n % 100))

/-- The `successRate` value: a formatted string (from `toFixed`) or
the bare number 0. -/
inductive RateVal where
  | strVal (s : String)
  | numVal (n : Nat)
deriving DecidableEq, Repr

/-- The object returned by `getProcessingStats`. -/
structure Stats where
  totalProcessed : Nat
  errors : Nat
  successRate : RateVal
  validationErrors : List DiagEntry

/-- Embedding of `IPDRProcessor.getProcessingStats()`. The percentage
`(recordCount / (recordCount + errorCount)) * 100` is the exact
rational `mkRat (recordCount * 100) (recordCount + errorCount)`. -/
def getProcessingStats (st : ProcState) : Stats :=
  { totalProcessed := st.recordCount
    errors := st.errorCount
    successRate :=
      if st.recordCount > 0 then
        .strVal (toFixed2
          (mkRat ((st.recordCount : Int) * 100) (st.recordCount + st.errorCount)))
      else .numVal 0
    validationErrors := st.validationErrors }

/-! ## Standard CSV field decoding (for the round-trip property) -/

/-- Undo the doubling of double quotes inside a quoted CSV field. -/
def undoubleL : List Char → List Char
  | [] => []
  | [c] => [c]
  | c1 :: c2 :: t =>
      if c1 = '"' ∧ c2 = '"' then '"' :: undoubleL t
      else c1 :: undoubleL (c2 :: t)

/-- Standard CSV field decoding: a field starting with a double quote
is unwrapped and its doubled quotes collapsed; any other field is
taken literally. -/
def decodeCsvField (s : String) : String :=
  match s.data with
  | '"' :: rest => ⟨undoubleL rest.dropLast⟩
  | _ => s

/-- Whether an encoded field is in quoted form. -/
def isQuotedField (s : String) : Bool :=
  match s.data with
  | '"' :: _ => true
  | _ => false

example : natRepr 95 = "95" := by decide
example : jsParseInt "  -42x" = some (-42) := by decide
example : jsParseInt "abc" = none := by decide
example : strIncludes "starttime" "time" = true := by decide
example : levenshteinDistance "kitten".data "sitting".data = 3 := by decide
example : fuzzyMatchField "dest_ip" ["b_party_ip", "destination_ip", "dest_ip"] = 1 := by decide
example : fuzzyMatchField "time" ["start_time", "time"] = mkRat 4 5 := by decide
example : getServiceLabel (some 443) = "HTTPS/WEB" := by decide
example : getServiceLabel (some 59999) = "OTHER" := by decide
example : getServiceLabel none = "UNKNOWN" := by decide
example : isValidIP "10.0.0.1" = true := by decide
example : isValidIP "1.2.3.999" = false := by decide
example : toFixed2 (mkRat 9500 100) = "95.00" := by decide
example : escapeCsv "a,\"b\"" = "\"a,\"\"b\"\"\"" := by decide
example : decodeCsvField "\"a,\"\"b\"\"\"" = "a,\"b\"" := by decide

/-! ## Theorems -/

/-- A filtered list is empty iff no element satisfies the filter;
bridge between `isValid` and the per-field condition. -/
theorem validateRequiredFields_isValid_true_iff (m : CMapping) :
    (validateRequiredFields m).isValid = true ↔
      ∀ p ∈ REQUIRED_FIELDS, truthyS (m p.1) = true := by
  simp only [validateRequiredFields, List.isEmpty_iff, List.map_eq_nil_iff,
    List.filter_eq_nil_iff]
  constructor
  · intro h p hp
    have := h p hp
    simpa using this
  · intro h p hp
    simp [h p hp]

/-- C1 (amended part): `validateRequiredFields` reports `isValid =
false` iff at least one of the five hard-coded `REQUIRED_FIELDS`
(subscriber id, source ip, destination ip, destination port, start
time) is unmapped — absent, null, or empty — with exactly one error
entry per unmapped required field. -/
theorem validateRequiredFields_isValid_iff_hardcoded (m : CMapping) :
    ((validateRequiredFields m).isValid = false ↔
      ∃ p ∈ REQUIRED_FIELDS, truthyS (m p.1) = false)
    ∧ (validateRequiredFields m).errors.length =
        (REQUIRED_FIELDS.filter (fun p => !truthyS (m p.1))).length
    ∧ (validateRequiredFields m).errors.map MapVError.field =
        (REQUIRED_FIELDS.filter (fun p => !truthyS (m p.1))).map Prod.fst := by
  refine ⟨?_, ?_, ?_⟩
  · rw [Bool.eq_false_iff, Ne, validateRequiredFields_isValid_true_iff]
    push_neg
    simp [Bool.not_eq_true]
  · simp [validateRequiredFields]
  · simp [validateRequiredFields]

/-- C1 (counterexample): a mapping that covers every field marked
required by the schema catalog (`schemaDefinition.js`, where `src_ip`
has `required: false`) is still reported invalid, because the
validator's hard-coded required list also demands `src_ip`; so the
validator's required fields are not those enumerated by the schema
catalog's required flags. -/
theorem validateRequiredFields_not_schema_catalog :
    (schemaRequiredKeys.all
      (fun f => truthyS
        ((fun g => if g = "a_party_id" then some "sub"
          else if g = "start_time" then some "ts"
          else if g = "dst_ip" then some "dip"
          else if g = "dst_port" then some "dp"
          else none : CMapping) f)) = true)
    ∧ (validateRequiredFields
        (fun g => if g = "a_party_id" then some "sub"
          else if g = "start_time" then some "ts"
          else if g = "dst_ip" then some "dip"
          else if g = "dst_port" then some "dp"
          else none)).isValid = false
    ∧ schemaRequiredKeys = ["a_party_id", "start_time", "dst_ip", "dst_port"]
    ∧ REQUIRED_FIELDS.map Prod.fst =
        ["a_party_id", "src_ip", "dst_ip", "dst_port", "start_time"] := by
  refine ⟨by decide, by decide, by decide, by decide⟩

/-- A fixed environment used to instantiate hypotheses at concrete
inputs: `Date.parse` recognizes the two stamps `T0` and `T1`. -/
def simpleEnv : JsEnv :=
  { dateParse := fun s => if s = "T0" then some 0 else if s = "T1" then some 5000 else none
    isoString := intRepr
    nowMs := 0
    randSuffix := "r9" }

/-- C2: a row that fails data-level record validation produces no
output line, increments `errorCount` by exactly one, leaves
`recordCount` unchanged, and appends exactly one diagnostic; the step
is a total function, so no exception escapes the per-row operation and
the stream continues with the next row. -/
theorem transformStep_invalid_row_skipped (env : JsEnv) (m : CMapping)
    (st : ProcState) (row : RawRecord)
    (hv : (validateRecord env (extractMappedValues m row)).isValid = false) :
    (transformStep env m st row).2 = none
    ∧ (transformStep env m st row).1.errorCount = st.errorCount + 1
    ∧ (transformStep env m st row).1.recordCount = st.recordCount
    ∧ (transformStep env m st row).1.validationErrors =
        st.validationErrors ++
          [{ record := st.recordCount + 1
             errors := (validateRecord env (extractMappedValues m row)).errors
             rawRecord := row }] := by
  simp [transformStep, hv]

/-- C2 witness: the empty mapping over the empty row fails validation,
and the step on the fresh state emits nothing while counting one
error. -/
theorem transformStep_invalid_row_skipped_witness :
    (validateRecord simpleEnv
      (extractMappedValues (fun _ => none) [])).isValid = false
    ∧ (transformStep simpleEnv (fun _ => none) initState []).2 = none
    ∧ (transformStep simpleEnv (fun _ => none) initState []).1.errorCount = 1
    ∧ (transformStep simpleEnv (fun _ => none) initState []).1.recordCount = 0 :=
  ⟨by decide,
   (transformStep_invalid_row_skipped simpleEnv (fun _ => none) initState []
      (by decide)).1,
   (transformStep_invalid_row_skipped simpleEnv (fun _ => none) initState []
      (by decide)).2.1,
   (transformStep_invalid_row_skipped simpleEnv (fun _ => none) initState []
      (by decide)).2.2.1⟩

/-- The alias loop returns the score of the first alias that scores
positive under the three rules, not the best one. -/
theorem fuzzyGo_eq_firstPositive (hl : List Char) (ps : List String) :
    fuzzyGo hl ps =
      firstPositive (ps.map (fun p => aliasScore hl (normalizeChars p))) := by
  induction ps with
  | nil => rfl
  | cons p ps ih =>
      have hfg : fuzzyGo hl (p :: ps) =
          (if hl = normalizeChars p then 1
           else if containsSub hl (normalizeChars p) || containsSub (normalizeChars p) hl
             then mkRat 4 5
           else if calculateSimilarity hl (normalizeChars p) > mkRat 7 10
             then calculateSimilarity hl (normalizeChars p)
           else fuzzyGo hl ps) := rfl
      have hfp : firstPositive
            ((p :: ps).map (fun q => aliasScore hl (normalizeChars q))) =
          (if aliasScore hl (normalizeChars p) ≠ 0 then aliasScore hl (normalizeChars p)
           else firstPositive (ps.map (fun q => aliasScore hl (normalizeChars q)))) := rfl
      rw [hfg, hfp]
      by_cases h1 : hl = normalizeChars p
      · have hsc : aliasScore hl (normalizeChars p) = 1 := by
          simp [aliasScore, h1]
        rw [if_pos h1, hsc]
        norm_num
      · by_cases h2 :
            (containsSub hl (normalizeChars p) || containsSub (normalizeChars p) hl) = true
        · have hsc : aliasScore hl (normalizeChars p) = mkRat 4 5 := by
            simp [aliasScore, h1, h2]
          rw [if_neg h1, if_pos h2, hsc]
          have h45 : (mkRat 4 5 : ℚ) ≠ 0 := by decide
          rw [if_pos h45]
        · by_cases h3 : calculateSimilarity hl (normalizeChars p) > mkRat 7 10
          · have hsc : aliasScore hl (normalizeChars p) =
                calculateSimilarity hl (normalizeChars p) := by
              simp [aliasScore, h1, h2, h3]
            have hne : calculateSimilarity hl (normalizeChars p) ≠ 0 :=
              ne_of_gt (lt_trans (by decide : (0 : ℚ) < mkRat 7 10) h3)
            rw [if_neg h1, if_neg h2, if_pos h3, hsc, if_pos hne]
          · have hsc : aliasScore hl (normalizeChars p) = 0 := by
              simp [aliasScore, h1, h2, h3]
            rw [if_neg h1, if_neg h2, if_neg h3, hsc, if_neg (by norm_num)]
            exact ih

/-- C3 (amended): the score returned by `fuzzyMatchField` is the score
of the FIRST alias, in list order, that scores positive under the
per-alias rules (1 for exact normalized equality, 4/5 for containment
either way, the normalized edit-distance similarity when above 7/10),
and 0 when no alias scores positive. -/
theorem fuzzyMatchField_first_positive_alias (header : String) (patterns : List String) :
    fuzzyMatchField header patterns =
      firstPositive (patterns.map
        (fun p => aliasScore (normalizeChars header) (normalizeChars p))) :=
  fuzzyGo_eq_firstPositive (normalizeChars header) patterns

/-- C3 (counterexample): for header `time` and aliases
`[start_time, time]`, the first alias scores 4/5 by containment and
the second scores 1 by exact equality, so the highest per-alias score
is 1 — but `fuzzyMatchField` returns 4/5, the first positive score,
not the highest. -/
theorem fuzzyMatchField_not_highest_alias :
    fuzzyMatchField "time" ["start_time", "time"] = mkRat 4 5
    ∧ aliasScore (normalizeChars "time") (normalizeChars "start_time") = mkRat 4 5
    ∧ aliasScore (normalizeChars "time") (normalizeChars "time") = 1
    ∧ (["start_time", "time"].map
        (fun p => aliasScore (normalizeChars "time") (normalizeChars p))).foldr max 0 = 1
    ∧ fuzzyMatchField "time" ["start_time", "time"] ≠
        (["start_time", "time"].map
          (fun p => aliasScore (normalizeChars "time") (normalizeChars p))).foldr max 0 := by
  refine ⟨by decide, by decide, by decide, by decide, by decide⟩

/-- C4: when the parsed collaborator (AI) mapping covers fewer than
60% of the required schema fields, the merged suggestion keeps every
truthy field→header entry the collaborator provided, and every schema
field the collaborator left unmapped (falsy) for which the fuzzy
fallback found a header receives the fallback's choice. -/
theorem mergeSuggestedMapping_preserves_and_fills (ai : CMapping)
    (headers : List String)
    (hcov : ((schemaRequiredKeys.filter (fun f => truthyS (ai f))).length : ℚ) <
        mkRat (3 * (schemaRequiredKeys.length : Int)) 5) :
    (∀ f h, ai f = some h → h ≠ "" →
        mergeSuggestedMapping ai headers f = some h)
    ∧ (∀ f ∈ schemaKeys, truthyS (ai f) = false →
        truthyS (createFallbackMapping headers f) = true →
        mergeSuggestedMapping ai headers f = createFallbackMapping headers f) := by
  constructor
  · intro f h hai hne
    have htr : truthyS (ai f) = true := by
      simp [truthyS, hai, hne]
    unfold mergeSuggestedMapping
    rw [if_pos hcov]
    simp only [htr]
    rw [if_neg]
    · exact hai
    · intro hc
      exact absurd htr (by simpa using hc.2.1)
  · intro f hf hfalse htrue
    unfold mergeSuggestedMapping
    rw [if_pos hcov]
    rw [if_pos ⟨hf, by simp [hfalse], htrue⟩]

/-- C4 witness: a collaborator mapping covering 2 of the 4
catalog-required fields (coverage 50% < 60%) is merged; its own two
entries survive and `dst_ip`, unmapped by the collaborator, is filled
with the fallback's choice `dest_ip`. -/
theorem mergeSuggestedMapping_preserves_and_fills_witness :
    (((schemaRequiredKeys.filter (fun f => truthyS
        ((fun g => if g = "a_party_id" then some "subscriber_id"
          else if g = "start_time" then some "session_start" else none : CMapping) f))).length : ℚ) <
      mkRat (3 * (schemaRequiredKeys.length : Int)) 5)
    ∧ (∀ f h,
        (fun g => if g = "a_party_id" then some "subscriber_id"
          else if g = "start_time" then some "session_start" else none : CMapping) f = some h →
        h ≠ "" →
        mergeSuggestedMapping
          (fun g => if g = "a_party_id" then some "subscriber_id"
            else if g = "start_time" then some "session_start" else none)
          ["subscriber_id", "session_start", "dest_ip", "dest_port"] f = some h) :=
  ⟨by decide,
   (mergeSuggestedMapping_preserves_and_fills
      (fun g => if g = "a_party_id" then some "subscriber_id"
        else if g = "start_time" then some "session_start" else none)
      ["subscriber_id", "session_start", "dest_ip", "dest_port"]
      (by decide)).1⟩

/-- One step grows the diagnostic list by one entry exactly when the
row fails data-level validation, and leaves it unchanged otherwise
(also on a caught serialization throw). -/
theorem transformStep_validationErrors_len (env : JsEnv) (m : CMapping)
    (st : ProcState) (row : RawRecord) :
    (transformStep env m st row).1.validationErrors.length =
      st.validationErrors.length +
        (if (validateRecord env (extractMappedValues m row)).isValid then 0 else 1) := by
  unfold transformStep
  by_cases h : (validateRecord env (extractMappedValues m row)).isValid = true
  · simp only [h, if_true]
    cases hr : recordToCsv env.isoString (processRecord env (extractMappedValues m row)) with
    | ok line => simp [hr]
    | error e => simp [hr]
  · have h' : (validateRecord env (extractMappedValues m row)).isValid = false := by
      simpa using h
    simp [h']

/-- Over a run, the diagnostic list length from any starting state is
the starting length plus the number of validation-rejected rows. -/
theorem runFrom_validationErrors_len (env : JsEnv) (m : CMapping) :
    ∀ (rows : List RawRecord) (st : ProcState),
      (runFrom env m st rows).validationErrors.length =
        st.validationErrors.length +
          rows.countP (fun r => !(validateRecord env (extractMappedValues m r)).isValid) := by
  intro rows
  induction rows with
  | nil => intro st; simp [runFrom]
  | cons r rs ih =>
      intro st
      rw [runFrom, ih, transformStep_validationErrors_len, List.countP_cons]
      by_cases h : (validateRecord env (extractMappedValues m r)).isValid = true
      · simp [h]
      · have h' : (validateRecord env (extractMappedValues m r)).isValid = false := by
          simpa using h
        simp [h']
        omega

/-- Counting in a constant list. -/
theorem countP_replicate_pos {α : Type} (p : α → Bool) (a : α) (h : p a = true) :
    ∀ n : Nat, (List.replicate n a).countP p = n := by
  intro n
  induction n with
  | zero => rfl
  | succ k ih =>
      rw [List.replicate_succ, List.countP_cons, ih, h]
      simp

/-- C5 (amended): the retained rejected-record diagnostics
(`validationErrors`, reported unsliced by `getProcessingStats`) grow
by exactly one entry per validation-rejected row, with no bound: after
any run their number equals the number of rejected rows. Only the
success-path console display slices the list to 5; the retained list
itself is unbounded. -/
theorem validationErrors_length_eq_rejected_count (env : JsEnv) (m : CMapping)
    (rows : List RawRecord) :
    (runTransform env m rows).validationErrors.length =
      rows.countP (fun r => !(validateRecord env (extractMappedValues m r)).isValid) := by
  unfold runTransform
  rw [runFrom_validationErrors_len]
  simp [initState]

/-- C5 (counterexample): there is no fixed bound B on the retained
diagnostic list — for every claimed bound, a file with B+1 invalid
rows makes the instance retain B+1 entries. The rejections involved
(missing required values) do not consult the environment's date
parser, so the instantiated environment is immaterial. -/
theorem validationErrors_no_fixed_bound :
    ¬ ∃ B : Nat, ∀ rows : List RawRecord,
      (runTransform simpleEnv (fun _ => none) rows).validationErrors.length ≤ B := by
  rintro ⟨B, hB⟩
  have hbad : (!(validateRecord simpleEnv
      (extractMappedValues (fun _ => none) ([] : RawRecord))).isValid) = true := rfl
  have hlen : (runTransform simpleEnv (fun _ => none)
      (List.replicate (B + 1) ([] : RawRecord))).validationErrors.length = B + 1 := by
    unfold runTransform
    rw [runFrom_validationErrors_len]
    rw [countP_replicate_pos
      (fun r => !(validateRecord simpleEnv (extractMappedValues (fun _ => none) r)).isValid)
      ([] : RawRecord) hbad (B + 1)]
    simp [initState]
  have := hB (List.replicate (B + 1) ([] : RawRecord))
  rw [hlen] at this
  omega

/-- A fully valid set of mapped values used to instantiate
accepted-row hypotheses. -/
def mvBase : MappedValues :=
  { a_party_id := some "user1"
    start_time := some "T0"
    end_time := none
    duration_ms := none
    src_ip := some "10.0.0.1"
    src_port := none
    nat_ip := none
    nat_port := none
    dst_ip := some "10.0.0.2"
    dst_port := some "443"
    protocol := none
    bytes_up := none
    bytes_down := none }

/-- C6: for an accepted row, an explicit duration value parses as an
integer and is multiplied by 1000 when below 1,000,000 (seconds
heuristic) and kept otherwise; with no explicit duration but start and
end present, the duration is end minus start in milliseconds; with no
explicit duration and no end time it is null. -/
theorem processRecord_duration_rules (env : JsEnv) (mv : MappedValues)
    (hv : (validateRecord env mv).isValid = true) :
    (∀ ds n, mv.duration_ms = some ds → ds ≠ "" → jsParseInt ds = some n →
        (processRecord env mv).duration_ms =
          some (if n < 1000000 then n * 1000 else n))
    ∧ (∀ es ems ss sms, truthyS mv.duration_ms = false →
        mv.end_time = some es → es ≠ "" → env.dateParse es = some ems →
        mv.start_time = some ss → ss ≠ "" → env.dateParse ss = some sms →
        (processRecord env mv).duration_ms = some (ems - sms))
    ∧ (truthyS mv.duration_ms = false → truthyS mv.end_time = false →
        (processRecord env mv).duration_ms = none) := by
  refine ⟨?_, ?_, ?_⟩
  · intro ds n hds hne hp
    simp [processRecord, hds, hne, hp, truthyS]
  · intro es ems ss sms hdur he hene hep hs hsne hsp
    simp [processRecord, hdur, he, hene, hep, hs, hsne, hsp]
  · intro hdur hend
    cases hE : mv.end_time with
    | none => simp [processRecord, hdur, hE]
    | some es =>
        have : es = "" := by
          rw [hE] at hend
          simpa [truthyS] using hend
        simp [processRecord, hdur, hE, this]

/-- C6 witness: raw duration 500 yields 500000 ms, raw 2000000 stays
2000000; with no explicit duration, end T1 (5000 ms) minus start T0
(0 ms) gives 5000; with neither, null. -/
theorem processRecord_duration_rules_witness :
    (validateRecord simpleEnv { mvBase with duration_ms := some "500" }).isValid = true
    ∧ (processRecord simpleEnv
        { mvBase with duration_ms := some "500" }).duration_ms = some 500000
    ∧ (processRecord simpleEnv
        { mvBase with duration_ms := some "2000000" }).duration_ms = some 2000000
    ∧ (processRecord simpleEnv
        { mvBase with end_time := some "T1" }).duration_ms = some 5000
    ∧ (processRecord simpleEnv mvBase).duration_ms = none := by
  refine ⟨by decide, ?_, ?_, ?_, ?_⟩
  · exact ((processRecord_duration_rules simpleEnv _ (by decide)).1
      "500" 500 rfl (by decide) (by decide)).trans (by decide)
  · exact ((processRecord_duration_rules simpleEnv _ (by decide)).1
      "2000000" 2000000 rfl (by decide) (by decide)).trans (by decide)
  · exact ((processRecord_duration_rules simpleEnv _ (by decide)).2.1
      "T1" 5000 "T0" 0 (by decide) rfl (by decide) (by decide) rfl
      (by decide) (by decide)).trans (by decide)
  · exact (processRecord_duration_rules simpleEnv _ (by decide)).2.2
      (by decide) (by decide)

/-- Doubling quotes never produces the empty list from a nonempty
one. -/
theorem doubleQuotesL_eq_nil {t : List Char} (h : doubleQuotesL t = []) : t = [] := by
  cases t with
  | nil => rfl
  | cons a r =>
      by_cases ha : a = '"' <;> simp [doubleQuotesL, ha] at h

/-- Collapsing doubled quotes undoes doubling. -/
theorem undoubleL_doubleQuotesL : ∀ cs : List Char, undoubleL (doubleQuotesL cs) = cs := by
  intro cs
  induction cs with
  | nil => rfl
  | cons c t ih =>
      by_cases hc : c = '"'
      · subst hc
        rw [show doubleQuotesL ('"' :: t) = '"' :: '"' :: doubleQuotesL t from by
          simp [doubleQuotesL]]
        rw [show undoubleL ('"' :: '"' :: doubleQuotesL t) =
              '"' :: undoubleL (doubleQuotesL t) from by simp [undoubleL]]
        rw [ih]
      · simp only [doubleQuotesL, if_neg hc]
        cases hX : doubleQuotesL t with
        | nil =>
            have ht : t = [] := doubleQuotesL_eq_nil hX
            subst ht
            simp [undoubleL]
        | cons x xs =>
            have hstep : undoubleL (c :: x :: xs) = c :: undoubleL (x :: xs) := by
              have : ¬(c = '"' ∧ x = '"') := fun hcx => hc hcx.1
              simp [undoubleL, this]
            rw [hstep, ← hX, ih]

/-- Decoding inverts the encoder's escaping on every string value. -/
theorem decodeCsvField_escapeCsv (s : String) : decodeCsvField (escapeCsv s) = s := by
  unfold escapeCsv
  by_cases h : needsQuote s = true
  · rw [if_pos h]
    have hdata : ("\"" ++ String.mk (doubleQuotesL s.data) ++ "\"").data
        = '"' :: (doubleQuotesL s.data ++ ['"']) := rfl
    unfold decodeCsvField
    rw [hdata]
    simp only [List.dropLast_concat]
    rw [undoubleL_doubleQuotesL]
  · rw [if_neg h]
    have h' : needsQuote s = false := by simpa using h
    unfold decodeCsvField
    split
    · rename_i rest heq
      exfalso
      have hmem : '"' ∈ s.data := by
        rw [heq]
        exact List.mem_cons_self _ _
      rw [needsQuote] at h'
      simp only [Bool.or_eq_false_iff] at h'
      have htrue : s.data.contains '"' = true := by
        rw [heq]
        simp
      rw [h'.1.2] at htrue
      cases htrue
    · rfl

/-- The encoder emits the quoted form exactly when the value needs
quoting. -/
theorem isQuotedField_escapeCsv (s : String) :
    isQuotedField (escapeCsv s) = needsQuote s := by
  unfold escapeCsv
  by_cases h : needsQuote s = true
  · rw [if_pos h, h]
    rfl
  · have h' : needsQuote s = false := by simpa using h
    rw [if_neg h, h']
    unfold isQuotedField
    split
    · rename_i rest heq
      exfalso
      have hmem : '"' ∈ s.data := by
        rw [heq]
        exact List.mem_cons_self _ _
      rw [needsQuote] at h'
      simp only [Bool.or_eq_false_iff] at h'
      have htrue : s.data.contains '"' = true := by
        rw [heq]
        simp
      rw [h'.1.2] at htrue
      cases htrue
    · rfl

/-- Successful serialization preserves the number of fields. -/
theorem encodeFieldsE_length (isoStr : Int → String) :
    ∀ (vs : List JsVal) (ss : List String),
      encodeFieldsE isoStr vs = .ok ss → ss.length = vs.length := by
  intro vs
  induction vs with
  | nil =>
      intro ss h
      unfold encodeFieldsE at h
      injection h with h'
      rw [← h']
      rfl
  | cons v t ih =>
      intro ss h
      unfold encodeFieldsE at h
      cases hv : toCsvField isoStr v <;> rw [hv] at h
      · cases h
      · cases ht : encodeFieldsE isoStr t <;> rw [ht] at h
        · cases h
        · injection h with h'
          rw [← h']
          simp [ih _ ht]

/-- C7: a field value is quoted iff its string form contains a comma,
a double quote, or a newline; decoding inverts the escaping;
null/undefined/NaN encode as the empty field; the value `a,"b"`
encodes as `"a,""b"""` and decodes back; and each record serializes to
the 14 comma-joined fields terminated by a single newline. -/
theorem recordToCsv_escaping_correct (s : String) (isoStr : Int → String)
    (r : CleanRecord) (line : String)
    (h : recordToCsv isoStr r = .ok line) :
    isQuotedField (escapeCsv s) = needsQuote s
    ∧ decodeCsvField (escapeCsv s) = s
    ∧ toCsvField isoStr JsVal.nullV = .ok ""
    ∧ escapeCsv "a,\"b\"" = "\"a,\"\"b\"\"\""
    ∧ decodeCsvField "\"a,\"\"b\"\"\"" = "a,\"b\""
    ∧ ∃ fields : List String, fields.length = 14
        ∧ line = String.intercalate "," fields ++ "\n" := by
  refine ⟨isQuotedField_escapeCsv s, decodeCsvField_escapeCsv s, rfl,
    by decide, by decide, ?_⟩
  unfold recordToCsv at h
  cases he : encodeFieldsE isoStr (recordFields r) <;> rw [he] at h
  · cases h
  · rename_i ss
    injection h with h'
    refine ⟨ss, ?_, h'.symm⟩
    rw [encodeFieldsE_length _ _ _ he]
    rfl

/-- The canonical record built from the base valid mapped values. -/
def cleanRec0 : CleanRecord := processRecord simpleEnv mvBase

/-- C8 (amended): the statistics operation reports the accepted-row
and error counts, and successRate is the two-decimal percentage string
`recordCount/(recordCount+errorCount)·100` whenever at least one row
was ACCEPTED; whenever `recordCount = 0` it is the bare number 0, even
if rejected rows were seen (`errorCount > 0`). -/
theorem getProcessingStats_successRate_amended (st : ProcState) :
    (getProcessingStats st).totalProcessed = st.recordCount
    ∧ (getProcessingStats st).errors = st.errorCount
    ∧ (0 < st.recordCount →
        (getProcessingStats st).successRate =
          .strVal (toFixed2 (mkRat ((st.recordCount : Int) * 100)
            (st.recordCount + st.errorCount))))
    ∧ (st.recordCount = 0 → (getProcessingStats st).successRate = .numVal 0) := by
  refine ⟨rfl, rfl, ?_, ?_⟩
  · intro h
    simp [getProcessingStats, h]
  · intro h
    simp [getProcessingStats, h]

/-- C8 witness: 95 accepted and 5 rejected rows give
recordsProcessed 95, errorCount 5 and successRate "95.00". -/
theorem getProcessingStats_successRate_amended_witness :
    0 < (95 : Nat)
    ∧ (getProcessingStats
        { recordCount := 95, errorCount := 5, validationErrors := [] }).successRate =
        .strVal "95.00"
    ∧ (getProcessingStats
        { recordCount := 95, errorCount := 5, validationErrors := [] }).totalProcessed = 95
    ∧ (getProcessingStats
        { recordCount := 95, errorCount := 5, validationErrors := [] }).errors = 5 := by
  refine ⟨by decide, ?_,
    (getProcessingStats_successRate_amended
      { recordCount := 95, errorCount := 5, validationErrors := [] }).1,
    (getProcessingStats_successRate_amended
      { recordCount := 95, errorCount := 5, validationErrors := [] }).2.1⟩
  exact ((getProcessingStats_successRate_amended
    { recordCount := 95, errorCount := 5, validationErrors := [] }).2.2.1
    (by decide)).trans (by decide)

/-- C8 (counterexample): after a run in which five records were seen
and all five rejected, the operation returns the bare number 0, not
the two-decimal percentage string the formula yields ("0.00") — so
successRate is the number 0 whenever no record was accepted, not only
when no records were seen. -/
theorem getProcessingStats_successRate_zero_cex :
    (runTransform simpleEnv (fun _ => none) (List.replicate 5 [])).recordCount = 0
    ∧ (runTransform simpleEnv (fun _ => none) (List.replicate 5 [])).errorCount = 5
    ∧ (getProcessingStats
        (runTransform simpleEnv (fun _ => none) (List.replicate 5 []))).successRate =
        .numVal 0
    ∧ RateVal.numVal 0 ≠
        .strVal (toFixed2 (mkRat ((0 : Int) * 100) (0 + 5))) := by
  refine ⟨by decide, by decide, by decide, by decide⟩

/-- Data-level validity implies every hard-coded required field
carries an acceptable value. -/
theorem validateRecord_required_ok (env : JsEnv) (mv : MappedValues)
    (hv : (validateRecord env mv).isValid = true) :
    ∀ p ∈ REQUIRED_FIELDS, badValue (getMV mv p.1) = false := by
  intro p hp
  simp only [validateRecord, List.isEmpty_iff, List.append_eq_nil,
    List.map_eq_nil_iff, List.filter_eq_nil_iff] at hv
  have := hv.1.1.1.1 p hp
  simpa using this

/-- C9: on every row that passes data-level validation, the emitted
`a_party_id` is exactly the raw extracted subscriber value — the
synthesized-identifier fallback of `generateSessionIdentifier` is
unreachable on the accepted path. -/
theorem processRecord_no_synthesized_id_on_valid (env : JsEnv) (mv : MappedValues)
    (hv : (validateRecord env mv).isValid = true) :
    ∃ s, mv.a_party_id = some s ∧ s ≠ ""
      ∧ (processRecord env mv).a_party_id = s := by
  have hbad := validateRecord_required_ok env mv hv
    ("a_party_id", "Subscriber identifier is absolutely required for IPDR analysis")
    (by decide)
  rw [show getMV mv "a_party_id" = mv.a_party_id from rfl] at hbad
  cases ha : mv.a_party_id with
  | none =>
      rw [ha] at hbad
      simp [badValue] at hbad
  | some s =>
      rw [ha] at hbad
      have hne : s ≠ "" := by
        intro hempty
        subst hempty
        simp [badValue] at hbad
      refine ⟨s, rfl, hne, ?_⟩
      simp [processRecord, ha, hne]

/-- C9 witness: the base valid values are accepted and the record
carries the raw subscriber id `user1`, not a synthesized one. -/
theorem processRecord_no_synthesized_id_on_valid_witness :
    (validateRecord simpleEnv mvBase).isValid = true
    ∧ (processRecord simpleEnv mvBase).a_party_id = "user1" := by
  refine ⟨by decide, ?_⟩
  obtain ⟨s, hs, hne, hp⟩ :=
    processRecord_no_synthesized_id_on_valid simpleEnv mvBase (by decide)
  have hseq : s = "user1" := by
    have h2 : (some "user1" : Option String) = some s :=
      (show (some "user1" : Option String) = mvBase.a_party_id from rfl).trans hs
    injection h2 with h3
    exact h3.symm
  rw [hp, hseq]

/-- A thrown field serialization makes the whole record serialization
throw. -/
theorem encodeFieldsE_error_of_mem (isoStr : Int → String) :
    ∀ vs : List JsVal, (∃ v ∈ vs, toCsvField isoStr v = .error ()) →
      encodeFieldsE isoStr vs = .error () := by
  intro vs
  induction vs with
  | nil =>
      rintro ⟨v, hv, _⟩
      cases hv
  | cons w t ih =>
      rintro ⟨v, hv, herr⟩
      rcases List.mem_cons.mp hv with rfl | hmem
      · unfold encodeFieldsE
        rw [herr]
      · have ht := ih ⟨v, hmem, herr⟩
        unfold encodeFieldsE
        rw [ht]
        cases hw : toCsvField isoStr w
        · rfl
        · rfl

/-- A present but unparsable end time becomes an Invalid Date. -/
theorem processRecord_end_time_invalid (env : JsEnv) (mv : MappedValues)
    (es : String) (he : mv.end_time = some es) (hne : es ≠ "")
    (hp : env.dateParse es = none) :
    (processRecord env mv).end_time = some .invalid := by
  simp [processRecord, he, hne, hp]

/-- Serializing a record whose end time is the Invalid Date throws. -/
theorem recordToCsv_error_of_invalid_end (isoStr : Int → String)
    (r : CleanRecord) (h : r.end_time = some .invalid) :
    recordToCsv isoStr r = .error () := by
  unfold recordToCsv
  rw [encodeFieldsE_error_of_mem isoStr (recordFields r)
    ⟨optDateVal r.end_time, by simp [recordFields], by rw [h]; rfl⟩]

/-- C10: a row that passes validation but carries a present,
unparsable end time is still not emitted: the Invalid Date throws
during serialization, the exception is caught, `errorCount` is
incremented, `recordCount` is unchanged, and — unlike a validation
rejection — NO diagnostic entry is appended, so the rejection is
invisible in the retained diagnostics. -/
theorem transformStep_bad_end_time_skipped (env : JsEnv) (m : CMapping)
    (st : ProcState) (row : RawRecord) (es : String)
    (hv : (validateRecord env (extractMappedValues m row)).isValid = true)
    (he : (extractMappedValues m row).end_time = some es)
    (hne : es ≠ "") (hp : env.dateParse es = none) :
    (transformStep env m st row).2 = none
    ∧ (transformStep env m st row).1.errorCount = st.errorCount + 1
    ∧ (transformStep env m st row).1.recordCount = st.recordCount
    ∧ (transformStep env m st row).1.validationErrors = st.validationErrors := by
  have hinv : (processRecord env (extractMappedValues m row)).end_time = some .invalid :=
    processRecord_end_time_invalid env _ es he hne hp
  have herr := recordToCsv_error_of_invalid_end env.isoString _ hinv
  unfold transformStep
  simp [hv, herr]

/-- C10 witness: an otherwise valid row whose end time `BAD` does not
parse is skipped with one counted error and no retained diagnostic. -/
theorem transformStep_bad_end_time_skipped_witness :
    (validateRecord simpleEnv (extractMappedValues (fun f => some f)
      [("a_party_id", "user1"), ("start_time", "T0"), ("end_time", "BAD"),
       ("src_ip", "10.0.0.1"), ("dst_ip", "10.0.0.2"),
       ("dst_port", "443")])).isValid = true
    ∧ (transformStep simpleEnv (fun f => some f) initState
        [("a_party_id", "user1"), ("start_time", "T0"), ("end_time", "BAD"),
         ("src_ip", "10.0.0.1"), ("dst_ip", "10.0.0.2"),
         ("dst_port", "443")]).2 = none
    ∧ (transformStep simpleEnv (fun f => some f) initState
        [("a_party_id", "user1"), ("start_time", "T0"), ("end_time", "BAD"),
         ("src_ip", "10.0.0.1"), ("dst_ip", "10.0.0.2"),
         ("dst_port", "443")]).1.validationErrors = initState.validationErrors :=
  ⟨by decide,
   (transformStep_bad_end_time_skipped simpleEnv (fun f => some f) initState
      [("a_party_id", "user1"), ("start_time", "T0"), ("end_time", "BAD"),
       ("src_ip", "10.0.0.1"), ("dst_ip", "10.0.0.2"), ("dst_port", "443")]
      "BAD" (by decide) (by decide) (by decide) (by decide)).1,
   (transformStep_bad_end_time_skipped simpleEnv (fun f => some f) initState
      [("a_party_id", "user1"), ("start_time", "T0"), ("end_time", "BAD"),
       ("src_ip", "10.0.0.1"), ("dst_ip", "10.0.0.2"), ("dst_port", "443")]
      "BAD" (by decide) (by decide) (by decide) (by decide)).2.2.2⟩

/-- C7 witness: a concrete record serializes successfully in the fixed
14-column order, and the spec's example value round-trips. -/
theorem recordToCsv_escaping_correct_witness :
    recordToCsv intRepr cleanRec0 =
      .ok "user1,0,,,,,10.0.0.1,,10.0.0.2,443,TCP,HTTPS/WEB,0,0\n"
    ∧ decodeCsvField (escapeCsv "a,\"b\"") = "a,\"b\"" :=
  ⟨by rfl,
   (recordToCsv_escaping_correct "a,\"b\"" intRepr cleanRec0
      "user1,0,,,,,10.0.0.1,,10.0.0.2,443,TCP,HTTPS/WEB,0,0\n" (by rfl)).2.1⟩
